import Mathlib

/-!
Shallow embedding of the Timeline & Turn Orchestration Core of the Victor
assistant front-end (source: the single React component `App`).

Modelling conventions:
* React state hooks become fields of `AppState`; every event handler becomes a
  pure state transformer.  The browser event loop delivers discrete events
  one at a time, which matches a step function `stepE : Ev → AppState → AppState`.
* `Date.now()`-based entry ids are modelled by a strictly increasing counter
  `clock`; each created entry receives the current counter value as its opaque
  id (the source ids are template strings around `Date.now()`, distinct in
  practice; distinct prefixes are irrelevant, only identity matters).
* The chess rules engine (`chess.js`) is an external collaborator; it is
  abstracted as a `ChessEngine` record of the operations the component calls.
* The speech-synthesis collaborator is abstracted to its observable effect:
  `speaking` holds the current utterance, `speakCount` counts started
  playbacks, `voices` is the size of the loaded voice catalog (the source only
  branches on `voices.length === 0`; which particular voice object is handed
  to the external API does not affect core state).
* `setTimeout(() => handleAiMove(board), 500)` is modelled by recording the
  captured board in `scheduledTTT`; the timer firing is a separate event.
  Likewise `scheduledChess` counts pending chess AI-move timers.
* In-flight streaming (`handleSubmit`) is split at its suspension points:
  the synchronous prefix is the `submit` event, then `chunk`, `streamEnd`
  and `streamFail` events model chunk arrival, exhaustion and transport
  failure of the `sendMessageStream` loop.
-/

namespace Victor

/-- Cell marks of the tic-tac-toe board (source strings 'X' / 'O'). -/
inductive Mark
  | X
  | O
deriving DecidableEq, Repr, Fintype

/-- Result values of `checkWinner` (source: 'X' | 'O' | 'Draw' | null,
with the `null` case modelled by `Option.none`). -/
inductive TTTRes
  | X
  | O
  | draw
deriving DecidableEq, Repr

/-- One board cell: `null` (empty) or a mark. -/
abbrev Cell := Option Mark

/-- The 3x3 tic-tac-toe board (source: `(string | null)[][]`). -/
abbrev Board := Fin 3 → Fin 3 → Cell

instance : DecidableEq Board := by
  unfold Board
  infer_instance

/-- Source `newBoard[row][col] = m` on a fresh copy of the board. -/
def setCell (b : Board) (r c : Fin 3) (m : Mark) : Board :=
  fun i j => if i = r ∧ j = c then some m else b i j

/-- Source `Array(3).fill(null).map(() => Array(3).fill(null))`. -/
def emptyBoard : Board := fun _ _ => none

/-- The eight candidate lines, in source order (rows, columns, diagonals). -/
def boardLines (b : Board) : List (Cell × Cell × Cell) :=
  [ (b 0 0, b 0 1, b 0 2), (b 1 0, b 1 1, b 1 2), (b 2 0, b 2 1, b 2 2),
    (b 0 0, b 1 0, b 2 0), (b 0 1, b 1 1, b 2 1), (b 0 2, b 1 2, b 2 2),
    (b 0 0, b 1 1, b 2 2), (b 0 2, b 1 1, b 2 0) ]

/-- Source test `line[0] && line[0] === line[1] && line[0] === line[2]` returning
`line[0]` on success. -/
def lineWinner : Cell × Cell × Cell → Option Mark
  | (some m, c2, c3) => if c2 = some m ∧ c3 = some m then some m else none
  | (none, _, _) => none

/-- Source `board.every(row => row.every(cell => cell))`. -/
def boardFull (b : Board) : Bool :=
  (List.finRange 3).all fun r => (List.finRange 3).all fun c => (b r c).isSome

/-- Source `checkWinner`: first winning line in source order, else `Draw`
when the board is full, else `null`. -/
def checkWinner (b : Board) : Option TTTRes :=
  match (boardLines b).findSome? lineWinner with
  | some Mark.X => some TTTRes.X
  | some Mark.O => some TTTRes.O
  | none => if boardFull b then some TTTRes.draw else none

example : checkWinner emptyBoard = none := by decide

/-- Speakers (source `role: 'user' | 'model'`). -/
inductive Role
  | user
  | model
deriving DecidableEq, Repr

/-- Embedded interactive widgets carried by a timeline entry.  `live` records
whether the widget's callback is the real handler (`handlePlayerMove` /
`handlePlayerChessMove`) or the no-op closure the source installs on
human-move snapshots (`onCellClick={() => {}}`, `onMove={() => false}`). -/
inductive Widget
  | ttt (board : Board) (status : String) (live : Bool)
  | chessB (fen : String) (live : Bool)
deriving DecidableEq

/-- A timeline entry (source interface `Message`). -/
structure Entry where
  id : Nat
  role : Role
  text : Option String := none
  widget : Option Widget := none
deriving DecidableEq

/-- The move record built by the chess board widget:
`{ from: selectedSquare, to: square, promotion: 'q' }`. -/
structure ChessMove where
  fromSq : String
  toSq : String
  promotion : String := "q"
deriving DecidableEq

/-- The operations the component calls on the external `chess.js` engine
(an external collaborator, hence abstract). -/
structure ChessEngine (Pos : Type) where
  start : Pos
  fen : Pos → String
  /-- Engine call `chess.move({from, to, promotion})`; `none` models the `null` result
  for an illegal request. -/
  moveReq : Pos → ChessMove → Option Pos
  /-- Engine call `chess.moves()` (SAN strings of all legal moves). -/
  sanMoves : Pos → List String
  /-- Engine call `chess.move(san)` for a SAN string. -/
  moveSan : Pos → String → Option Pos
  isGameOver : Pos → Bool
  inCheck : Pos → Bool
  isCheckmate : Pos → Bool
  isDraw : Pos → Bool
  isStalemate : Pos → Bool
  isThreefoldRepetition : Pos → Bool
  isInsufficientMaterial : Pos → Bool
  /-- Engine query `chess.turn() === 'w'`. -/
  whiteToMove : Pos → Bool

/-- Source `activeGame` enum. -/
inductive ActiveGame
  | none
  | tictactoe
  | chess
deriving DecidableEq, Repr

/-- The pending streaming reply: the id of the streaming assistant entry
(`modelMessageId`), the accumulated `fullModelResponse`, and the values the
`handleSubmit` closure captured at submit time.  The source's `finally`
block reads `isTtsEnabled` (and `speak` reads `voices`) from the render that
created the handler — a stale React closure — so state toggles during the
stream do not affect the post-stream playback decision. -/
structure Pending where
  msgId : Nat
  full : String
  /-- Stale-closure capture of `isTtsEnabled`, consulted by the finally block. -/
  ttsAtSubmit : Bool
  /-- Stale-closure capture of `voices.length`, consulted by the finally
  block's `speak`. -/
  voicesAtSubmit : Nat
deriving DecidableEq

/-- The component state: each `useState` hook and ref becomes a field, plus
the modelled asynchronous artifacts (pending stream, scheduled timers,
current utterance) and the id clock. -/
structure AppState (Pos : Type) where
  history : List Entry
  userInput : String
  isLoading : Bool
  isListening : Bool
  isTtsEnabled : Bool
  /-- Size (`voices.length`) of the loaded speech-synthesis voice catalog. -/
  voices : Nat
  activeGame : ActiveGame
  /-- Ref `chessRef.current` (`none` = null). -/
  chessPos : Option Pos
  pending : Option Pending
  /-- Boards captured by pending `setTimeout(() => handleAiMove(board), 500)`. -/
  scheduledTTT : List Board
  /-- Count of pending `setTimeout(() => handleAiChessMove(), 500)`. -/
  scheduledChess : Nat
  /-- Current speech-synthesis utterance, if any. -/
  speaking : Option String
  /-- Ghost counter: number of playback sessions started so far. -/
  speakCount : Nat
  clock : Nat

variable {Pos : Type}

/-- Append one entry, assigning the next id. -/
def appendEntry (s : AppState Pos) (role : Role) (text : Option String)
    (widget : Option Widget) : AppState Pos :=
  { s with
    history := s.history ++ [{ id := s.clock, role := role, text := text, widget := widget }]
    clock := s.clock + 1 }

/-- Source `speak` with an explicit voice-catalog size `v` (the `voices`
value the calling closure sees): skipped when that catalog is empty,
otherwise cancels any previous utterance and starts the new one.  (Which
concrete voice object the source picks for the external API does not affect
core state.) -/
def speakWith (v : Nat) (s : AppState Pos) (text : String) : AppState Pos :=
  if v = 0 then s
  else { s with speaking := some text, speakCount := s.speakCount + 1 }

/-- Source `speak` as invoked from a fresh render (Read Aloud): reads the
current voice catalog. -/
def speak (s : AppState Pos) (text : String) : AppState Pos :=
  speakWith s.voices s text

def greetingText : String := "Good day, Srabon. Victor online and ready to assist."

def gameConcludedText : String :=
  "Game concluded. I am ready for your next command, Srabon."

def apologyText : String :=
  "Apologies, Srabon. I seem to be having some trouble connecting to the network."

def tttIntroText : String :=
  "An excellent choice, Srabon. Let's play Tic-Tac-Toe. You are 'X'. Make your move."

def chessIntroText : String :=
  "Very well, Srabon. A game of Chess it is. You play as White. Your move."

/-- Source `endGame`: clear the active game and append the concluding entry.
(Note: it does not clear `chessRef` and does not cancel pending timers.) -/
def endGame (s : AppState Pos) : AppState Pos :=
  appendEntry { s with activeGame := ActiveGame.none } .model (some gameConcludedText) none

/-- Source `startTicTacToe`: set the active game and append the intro text and
the initial live board widget. -/
def startTicTacToe (s : AppState Pos) : AppState Pos :=
  let s1 := { s with activeGame := ActiveGame.tictactoe }
  let s2 := appendEntry s1 .model (some tttIntroText) none
  appendEntry s2 .model none (some (.ttt emptyBoard "playing" true))

/-- Source `winner === 'X' ? ... : ...` in `handlePlayerMove`. -/
def playerWinText (w : TTTRes) : String :=
  if w = TTTRes.X then "Congratulations, Srabon, you've won!"
  else "A draw. A well-played game."

/-- Source `winner === 'O' ? ... : ...` in `handleAiMove`. -/
def aiWinText (w : TTTRes) : String :=
  if w = TTTRes.O then "It appears I have won this round. Better luck next time, Srabon."
  else "A draw. A well-played game."

/-- Source `handlePlayerMove(row, col, currentBoard)`.  Note the validation is
against `currentBoard` — the snapshot the clicked widget closed over — not
against any live game state.  On a terminal move no AI ply is scheduled. -/
def handlePlayerMove (r c : Fin 3) (b : Board) (s : AppState Pos) : AppState Pos :=
  if (b r c).isSome ∨ (checkWinner b).isSome then s
  else
    let nb := setCell b r c Mark.X
    let s1 := appendEntry s .user none (some (.ttt nb "playing" false))
    match checkWinner nb with
    | some w => endGame (appendEntry s1 .model (some (playerWinText w)) none)
    | none => { s1 with scheduledTTT := s1.scheduledTTT ++ [nb] }

/-- The `emptyCells` list of `handleAiMove`, in the source's row-major order. -/
def emptyCells (b : Board) : List (Fin 3 × Fin 3) :=
  (List.finRange 3).flatMap fun r =>
    (List.finRange 3).filterMap fun c =>
      if (b r c).isSome then none else some (r, c)

/-- Source `emptyCells[Math.floor(Math.random() * emptyCells.length)]`; the random
draw is modelled by an arbitrary `choice` reduced mod the list length
(`none` models the `undefined` index on an empty list, guarded by `if(move)`). -/
def aiPickedCell (b : Board) (choice : Nat) : Option (Fin 3 × Fin 3) :=
  (emptyCells b).get? (choice % (emptyCells b).length)

/-- The board after the AI ply of `handleAiMove` (`if(move) newBoard[..] = 'O'`). -/
def aiNewBoard (b : Board) (choice : Nat) : Board :=
  match aiPickedCell b choice with
  | some (r, c) => setCell b r c Mark.O
  | none => b

/-- Source `handleAiMove(currentBoard)`.  It performs no validity check
against the conversation state: it always appends the post-move board. -/
def handleAiMove (b : Board) (choice : Nat) (s : AppState Pos) : AppState Pos :=
  let nb := aiNewBoard b choice
  let w := checkWinner nb
  let status := if w.isSome then "finished" else "playing"
  let s1 := appendEntry s .model none (some (.ttt nb status true))
  match w with
  | some w => endGame (appendEntry s1 .model (some (aiWinText w)) none)
  | none => s1

/-- Source `startChess`: set the active game, create the engine position and
append the intro text and initial live board. -/
def startChessGame (E : ChessEngine Pos) (s : AppState Pos) : AppState Pos :=
  let s1 := { s with activeGame := ActiveGame.chess, chessPos := some E.start }
  let s2 := appendEntry s1 .model (some chessIntroText) none
  appendEntry s2 .model none (some (.chessB (E.fen E.start) true))

/-- The outcome narration of `handleChessGameOver`. -/
def chessOverText (E : ChessEngine Pos) (pos : Pos) : String :=
  if E.isCheckmate pos then
    if ¬ E.whiteToMove pos then "Checkmate. An impressive victory, Srabon."
    else "Checkmate. I have won this time, Srabon."
  else if E.isDraw pos then
    if E.isStalemate pos then "Stalemate. The game is a draw."
    else if E.isThreefoldRepetition pos then "Draw by threefold repetition."
    else if E.isInsufficientMaterial pos then "Draw due to insufficient material."
    else "The game is a draw."
  else "The game is over."

/-- Source `handleChessGameOver`: append the outcome narration, then `endGame`.
(Reads `chessRef.current`, which is non-null on every call site.) -/
def handleChessGameOver (E : ChessEngine Pos) (s : AppState Pos) : AppState Pos :=
  match s.chessPos with
  | none => s
  | some pos => endGame (appendEntry s .model (some (chessOverText E pos)) none)

/-- Source `handlePlayerChessMove(move)`: validated against the live
`chessRef.current`; on rejection (`null` ref, finished game, or illegal move)
the state is untouched. -/
def handlePlayerChessMove (E : ChessEngine Pos) (m : ChessMove) (s : AppState Pos) :
    AppState Pos :=
  match s.chessPos with
  | none => s
  | some pos =>
    if E.isGameOver pos then s
    else
      match E.moveReq pos m with
      | none => s
      | some pos' =>
        let s1 := appendEntry { s with chessPos := some pos' } .user none
          (some (.chessB (E.fen pos') false))
        if E.isGameOver pos' then handleChessGameOver E s1
        else { s1 with scheduledChess := s1.scheduledChess + 1 }

/-- Source `handleAiChessMove`: guarded by `isGameOver` on the live position
(but `endGame` never clears `chessRef`, so a forfeit does not trip this
guard).  The random SAN pick is modelled like `aiPickedCell`. -/
def handleAiChessMove (E : ChessEngine Pos) (choice : Nat) (s : AppState Pos) :
    AppState Pos :=
  match s.chessPos with
  | none => s
  | some pos =>
    if E.isGameOver pos then s
    else
      match (E.sanMoves pos).get? (choice % (E.sanMoves pos).length) with
      | none => s
      | some san =>
        match E.moveSan pos san with
        | none => s
        | some pos' =>
          let s1 := { s with chessPos := some pos' }
          let s2 := if E.inCheck pos' then appendEntry s1 .model (some "Check.") none else s1
          let s3 := appendEntry s2 .model none (some (.chessB (E.fen pos') true))
          if E.isGameOver pos' then handleChessGameOver E s3 else s3

/-- Truth of `!text.trim()`: the trimmed string is empty exactly when every
character is whitespace. -/
def blankInput (t : String) : Bool :=
  t.toList.all Char.isWhitespace

/-- The synchronous prefix of source `handleSubmit`: guard, cancel playback,
stop capture, append the user entry, clear the input, enter loading, append
the empty pending assistant entry and record the stream handle. -/
def handleSubmitStart (s : AppState Pos) : AppState Pos :=
  if blankInput s.userInput ∨ s.isLoading then s
  else
    let s0 := { s with speaking := none }
    let s1 := if s0.isListening then { s0 with isListening := false } else s0
    let s2 := appendEntry s1 .user (some s1.userInput) none
    let s3 := { s2 with userInput := "", isLoading := true }
    let s4 := appendEntry s3 .model (some "") none
    { s4 with pending := some (Pending.mk s3.clock "" s.isTtsEnabled s.voices) }

/-- One chunk of the `for await` loop: fold the chunk text into every entry
whose id equals `modelMessageId` and into `fullModelResponse`. -/
def applyChunk (t : String) (s : AppState Pos) : AppState Pos :=
  match s.pending with
  | none => s
  | some p =>
    { s with
      history := s.history.map fun (msg : Entry) =>
        if msg.id = p.msgId then { msg with text := some ((msg.text.getD "") ++ t) } else msg
      pending := some { p with full := p.full ++ t } }

/-- Stream exhaustion: the `finally` block on the success path
(`setIsLoading(false)`, then `if (isTtsEnabled && fullModelResponse)
speak(..)`).  The block's `isTtsEnabled` and `speak`'s `voices` are the
submit-time stale-closure captures, not the current state. -/
def streamDone (s : AppState Pos) : AppState Pos :=
  match s.pending with
  | none => s
  | some p =>
    let s1 := { s with isLoading := false, pending := none }
    if p.ttsAtSubmit ∧ p.full ≠ "" then speakWith p.voicesAtSubmit s1 p.full else s1

/-- Transport failure: the `catch` block (replace the pending entry's text
wholesale with the apology) followed by the `finally` block, whose
`isTtsEnabled` and `voices` are again the submit-time stale-closure
captures (the apology is non-empty, so the flag alone decides). -/
def streamFailStep (s : AppState Pos) : AppState Pos :=
  match s.pending with
  | none => s
  | some p =>
    let s1 :=
      { s with
        history := s.history.map fun (msg : Entry) =>
          if msg.id = p.msgId then { msg with text := some apologyText } else msg }
    let s2 := { s1 with isLoading := false, pending := none }
    if p.ttsAtSubmit then speakWith p.voicesAtSubmit s2 apologyText else s2

/-- Source `handleListenClick`: no-op while loading, else toggles capture. -/
def handleListenClick (s : AppState Pos) : AppState Pos :=
  if s.isLoading then s
  else { s with isListening := ! s.isListening }

/-- Source `toggleTts`: turning the flag off also cancels playback. -/
def toggleTtsStep (s : AppState Pos) : AppState Pos :=
  if s.isTtsEnabled then { s with isTtsEnabled := false, speaking := none }
  else { s with isTtsEnabled := true }

/-- Source `handleReadAloud`: `if (text) speak(text)` — no TTS-flag check. -/
def handleReadAloud (t : String) (s : AppState Pos) : AppState Pos :=
  if t = "" then s else speak s t

/-- The discrete external events driving the component: user intents and
asynchronous callbacks (stream chunks, speech events, timer firings). -/
inductive Ev
  | setInput (t : String)
  | submit
  | chunk (t : String)
  | streamEnd
  | streamFail
  | listenClick
  | speechResult (t : String)
  | speechEnd
  | toggleTts
  | voicesLoaded (n : Nat)
  | readAloud (t : String)
  | startTTT
  | startChess
  | forfeit
  | tttClick (r c : Fin 3) (idx : Nat)
  | fireTTT (b : Board) (choice : Nat)
  | chessClick (m : ChessMove)
  | fireChess (choice : Nat)

/-- Whether an entry renders a live tic-tac-toe board widget (the `tttClick`
event addresses the widget by its history index, as the DOM does). -/
def liveTTTBoard (e : Entry) : Option Board :=
  match e.widget with
  | some (.ttt b _ true) => some b
  | _ => none

/-- Whether some live chess board widget is rendered. -/
def hasLiveChessBoard (s : AppState Pos) : Bool :=
  s.history.any fun e =>
    match e.widget with
    | some (.chessB _ true) => true
    | _ => false

/-- One step of the component.  UI composition gates are encoded where the
source renders a control conditionally: the text form and mic button exist
only while `activeGame === 'none'` (the footer shows the Forfeit button
otherwise), the Forfeit button only during a game, the Read Aloud action only
on an assistant entry carrying that text.  The game-center button is always
rendered and enabled.  Timer events fire only if actually scheduled; chunk
and stream events only while a stream handle is pending. -/
def stepE (E : ChessEngine Pos) : Ev → AppState Pos → AppState Pos
  | .setInput t, s =>
    if s.activeGame = ActiveGame.none ∧ ¬ s.isLoading ∧ ¬ s.isListening then
      { s with userInput := t }
    else s
  | .submit, s => if s.activeGame = ActiveGame.none then handleSubmitStart s else s
  | .chunk t, s => applyChunk t s
  | .streamEnd, s => streamDone s
  | .streamFail, s => streamFailStep s
  | .listenClick, s => if s.activeGame = ActiveGame.none then handleListenClick s else s
  | .speechResult t, s => if s.isListening then { s with userInput := t } else s
  | .speechEnd, s => { s with isListening := false }
  | .toggleTts, s => toggleTtsStep s
  | .voicesLoaded n, s => { s with voices := n }
  | .readAloud t, s =>
    if s.history.any (fun e => decide (e.role = Role.model ∧ e.text = some t)) then
      handleReadAloud t s
    else s
  | .startTTT, s => startTicTacToe s
  | .startChess, s => startChessGame E s
  | .forfeit, s => if s.activeGame ≠ ActiveGame.none then endGame s else s
  | .tttClick r c idx, s =>
    match s.history.get? idx with
    | some e =>
      match liveTTTBoard e with
      | some b => handlePlayerMove r c b s
      | none => s
    | none => s
  | .fireTTT b choice, s =>
    if b ∈ s.scheduledTTT then
      handleAiMove b choice { s with scheduledTTT := s.scheduledTTT.erase b }
    else s
  | .chessClick m, s =>
    if hasLiveChessBoard s then handlePlayerChessMove E m s else s
  | .fireChess choice, s =>
    if s.scheduledChess ≠ 0 then
      handleAiChessMove E choice { s with scheduledChess := s.scheduledChess - 1 }
    else s

/-- Session start (successful `initChat` path): the greeting entry, TTS
enabled, everything else idle. -/
def initState : AppState Pos :=
  { history := [{ id := 0, role := .model, text := some greetingText, widget := none }]
    userInput := ""
    isLoading := false
    isListening := false
    isTtsEnabled := true
    voices := 0
    activeGame := ActiveGame.none
    chessPos := none
    pending := none
    scheduledTTT := []
    scheduledChess := 0
    speaking := none
    speakCount := 0
    clock := 1 }

/-- Run a sequence of events from session start. -/
def run (E : ChessEngine Pos) (evs : List Ev) : AppState Pos :=
  evs.foldl (fun s e => stepE E e s) initState

/-- The states a session can reach. -/
def Reachable (E : ChessEngine Pos) (s : AppState Pos) : Prop :=
  ∃ evs, run E evs = s

/-- Degenerate engine instance used to close counterexamples and witnesses on
traces that never touch chess. -/
def unitEngine : ChessEngine Unit :=
  { start := ()
    fen := fun _ => "startpos"
    moveReq := fun _ _ => none
    sanMoves := fun _ => []
    moveSan := fun _ _ => none
    isGameOver := fun _ => false
    inCheck := fun _ => false
    isCheckmate := fun _ => false
    isDraw := fun _ => false
    isStalemate := fun _ => false
    isThreefoldRepetition := fun _ => false
    isInsufficientMaterial := fun _ => false
    whiteToMove := fun _ => true }

/-- Two-position engine used to exercise game-over paths in witnesses:
position `false` is live with one legal move leading to position `true`,
which is checkmate with Black (the engine side) having delivered mate. -/
def toyEngine : ChessEngine Bool :=
  { start := false
    fen := fun p => if p then "matepos" else "startpos"
    moveReq := fun p _ => if p then none else some true
    sanMoves := fun p => if p then [] else ["Qh4"]
    moveSan := fun p _ => if p then none else some true
    isGameOver := fun p => p
    inCheck := fun p => p
    isCheckmate := fun p => p
    isDraw := fun _ => false
    isStalemate := fun _ => false
    isThreefoldRepetition := fun _ => false
    isInsufficientMaterial := fun _ => false
    whiteToMove := fun p => ! p }

/-! ### Histories only grow: the append-or-text-mutation discipline -/

/-- Two entries agree on everything except possibly their text payload. -/
def SameSkeleton (e e' : Entry) : Prop :=
  e'.id = e.id ∧ e'.role = e.role ∧ e'.widget = e.widget

/-- Relation: `h'` is obtained from `h` by appending entries at the end and/or mutating
texts of entries already present: every old position still holds an entry
with the same id, speaker and widget, and the log only got longer. -/
def ExtendsBy (h h' : List Entry) : Prop :=
  h.length ≤ h'.length ∧
  ∀ i e, h.get? i = some e → ∃ e', h'.get? i = some e' ∧ SameSkeleton e e'

lemma sameSkeleton_refl (e : Entry) : SameSkeleton e e := ⟨rfl, rfl, rfl⟩

lemma sameSkeleton_trans {a b c : Entry} (h1 : SameSkeleton a b) (h2 : SameSkeleton b c) :
    SameSkeleton a c :=
  ⟨h2.1.trans h1.1, h2.2.1.trans h1.2.1, h2.2.2.trans h1.2.2⟩

lemma extendsBy_refl (h : List Entry) : ExtendsBy h h :=
  ⟨le_refl _, fun _ e he => ⟨e, he, sameSkeleton_refl e⟩⟩

lemma extendsBy_of_eq {h h' : List Entry} (e : h = h') : ExtendsBy h h' :=
  e ▸ extendsBy_refl h

lemma extendsBy_trans {h₁ h₂ h₃ : List Entry} (a : ExtendsBy h₁ h₂) (b : ExtendsBy h₂ h₃) :
    ExtendsBy h₁ h₃ := by
  refine ⟨a.1.trans b.1, fun i e he => ?_⟩
  obtain ⟨e₂, he₂, hs₂⟩ := a.2 i e he
  obtain ⟨e₃, he₃, hs₃⟩ := b.2 i e₂ he₂
  exact ⟨e₃, he₃, sameSkeleton_trans hs₂ hs₃⟩

lemma extendsBy_append (h l : List Entry) : ExtendsBy h (h ++ l) := by
  refine ⟨by simp, fun i e he => ?_⟩
  have hi : i < h.length := by
    by_contra hlt
    rw [List.get?_eq_none.2 (le_of_not_lt hlt)] at he
    exact Option.noConfusion he
  exact ⟨e, by rw [List.get?_append hi, he], sameSkeleton_refl e⟩

lemma extendsBy_map {h : List Entry} {f : Entry → Entry}
    (hf : ∀ e, SameSkeleton e (f e)) : ExtendsBy h (h.map f) := by
  refine ⟨by simp, fun i e he => ?_⟩
  exact ⟨f e, by rw [List.get?_map, he]; rfl, hf e⟩

lemma appendEntry_history (s : AppState Pos) (r : Role) (t : Option String)
    (w : Option Widget) :
    (appendEntry s r t w).history
      = s.history ++ [{ id := s.clock, role := r, text := t, widget := w }] := rfl

lemma extends_appendEntry (s : AppState Pos) (r : Role) (t : Option String)
    (w : Option Widget) : ExtendsBy s.history (appendEntry s r t w).history :=
  extendsBy_append _ _

lemma extends_endGame (s : AppState Pos) : ExtendsBy s.history (endGame s).history :=
  extendsBy_append _ _

lemma extends_startTicTacToe (s : AppState Pos) :
    ExtendsBy s.history (startTicTacToe s).history := by
  unfold startTicTacToe
  refine extendsBy_trans ?_ (extends_appendEntry _ _ _ _)
  exact extends_appendEntry _ _ _ _

lemma extends_startChessGame (E : ChessEngine Pos) (s : AppState Pos) :
    ExtendsBy s.history (startChessGame E s).history := by
  unfold startChessGame
  refine extendsBy_trans ?_ (extends_appendEntry _ _ _ _)
  exact extends_appendEntry _ _ _ _

lemma extends_handlePlayerMove (r c : Fin 3) (b : Board) (s : AppState Pos) :
    ExtendsBy s.history (handlePlayerMove r c b s).history := by
  unfold handlePlayerMove
  split
  · exact extendsBy_refl _
  · dsimp only
    split
    · refine extendsBy_trans ?_ (extends_endGame _)
      refine extendsBy_trans ?_ (extends_appendEntry _ _ _ _)
      exact extends_appendEntry _ _ _ _
    · exact extends_appendEntry _ _ _ _

lemma extends_handleAiMove (b : Board) (choice : Nat) (s : AppState Pos) :
    ExtendsBy s.history (handleAiMove b choice s).history := by
  unfold handleAiMove
  dsimp only
  split
  · refine extendsBy_trans ?_ (extends_endGame _)
    refine extendsBy_trans ?_ (extends_appendEntry _ _ _ _)
    exact extends_appendEntry _ _ _ _
  · exact extends_appendEntry _ _ _ _

lemma extends_handleChessGameOver (E : ChessEngine Pos) (s : AppState Pos) :
    ExtendsBy s.history (handleChessGameOver E s).history := by
  unfold handleChessGameOver
  split
  · exact extendsBy_refl _
  · refine extendsBy_trans ?_ (extends_endGame _)
    exact extends_appendEntry _ _ _ _

lemma extends_handlePlayerChessMove (E : ChessEngine Pos) (m : ChessMove)
    (s : AppState Pos) : ExtendsBy s.history (handlePlayerChessMove E m s).history := by
  unfold handlePlayerChessMove
  split
  · exact extendsBy_refl _
  · split
    · exact extendsBy_refl _
    · split
      · exact extendsBy_refl _
      · dsimp only
        split
        · refine extendsBy_trans ?_ (extends_handleChessGameOver _ _)
          exact extends_appendEntry _ _ _ _
        · exact extends_appendEntry _ _ _ _

lemma extends_handleAiChessMove (E : ChessEngine Pos) (choice : Nat)
    (s : AppState Pos) : ExtendsBy s.history (handleAiChessMove E choice s).history := by
  unfold handleAiChessMove
  split
  · exact extendsBy_refl _
  · split
    · exact extendsBy_refl _
    · split
      · exact extendsBy_refl _
      · split
        · exact extendsBy_refl _
        · dsimp only
          split
          · refine extendsBy_trans ?_ (extends_handleChessGameOver _ _)
            refine extendsBy_trans ?_ (extends_appendEntry _ _ _ _)
            split
            · exact extends_appendEntry _ _ _ _
            · exact extendsBy_refl _
          · refine extendsBy_trans ?_ (extends_appendEntry _ _ _ _)
            split
            · exact extends_appendEntry _ _ _ _
            · exact extendsBy_refl _

lemma extends_handleSubmitStart (s : AppState Pos) :
    ExtendsBy s.history (handleSubmitStart s).history := by
  unfold handleSubmitStart
  split
  · exact extendsBy_refl _
  · dsimp only
    refine extendsBy_trans ?_ (extends_appendEntry _ _ _ _)
    refine extendsBy_trans ?_ (extends_appendEntry _ _ _ _)
    split
    · exact extendsBy_refl _
    · exact extendsBy_refl _

lemma sameSkeleton_setTextIte (c : Prop) [Decidable c] (e : Entry) (t : Option String) :
    SameSkeleton e (if c then { e with text := t } else e) := by
  split
  · exact ⟨rfl, rfl, rfl⟩
  · exact ⟨rfl, rfl, rfl⟩

lemma extends_applyChunk (t : String) (s : AppState Pos) :
    ExtendsBy s.history (applyChunk t s).history := by
  unfold applyChunk
  split
  · exact extendsBy_refl _
  · exact extendsBy_map fun e => sameSkeleton_setTextIte _ e _

lemma speakWith_history (v : Nat) (s : AppState Pos) (t : String) :
    (speakWith v s t).history = s.history := by
  unfold speakWith
  split <;> rfl

lemma speak_history (s : AppState Pos) (t : String) : (speak s t).history = s.history :=
  speakWith_history s.voices s t

lemma extends_streamDone (s : AppState Pos) :
    ExtendsBy s.history (streamDone s).history := by
  unfold streamDone
  split
  · exact extendsBy_refl _
  · dsimp only
    split
    · rw [speakWith_history]
      exact extendsBy_refl _
    · exact extendsBy_refl _

lemma extends_streamFailStep (s : AppState Pos) :
    ExtendsBy s.history (streamFailStep s).history := by
  unfold streamFailStep
  split
  · exact extendsBy_refl _
  · dsimp only
    split
    · rw [speakWith_history]
      exact extendsBy_map fun e => sameSkeleton_setTextIte _ e _
    · exact extendsBy_map fun e => sameSkeleton_setTextIte _ e _

lemma handleListenClick_history (s : AppState Pos) :
    (handleListenClick s).history = s.history := by
  unfold handleListenClick
  split <;> rfl

lemma toggleTtsStep_history (s : AppState Pos) :
    (toggleTtsStep s).history = s.history := by
  unfold toggleTtsStep
  split <;> rfl

lemma handleReadAloud_history (t : String) (s : AppState Pos) :
    (handleReadAloud t s).history = s.history := by
  unfold handleReadAloud
  split
  · rfl
  · exact speak_history s t

/-- C1: for every event — accepted intent or asynchronous callback (stream
chunk, speech event, game callback, timer firing) — the timeline history
evolves only by appending entries at the end or by mutating the text of an
already-present entry: no entry is removed, and every previously appended
entry keeps its position, id, speaker and widget. -/
theorem timeline_appendOnly (E : ChessEngine Pos) (e : Ev) (s : AppState Pos) :
    ExtendsBy s.history (stepE E e s).history := by
  cases e with
  | setInput t =>
    dsimp only [stepE]
    split <;> exact extendsBy_refl _
  | submit =>
    dsimp only [stepE]
    split
    · exact extends_handleSubmitStart s
    · exact extendsBy_refl _
  | chunk t => exact extends_applyChunk t s
  | streamEnd => exact extends_streamDone s
  | streamFail => exact extends_streamFailStep s
  | listenClick =>
    dsimp only [stepE]
    split
    · exact extendsBy_of_eq (handleListenClick_history s).symm
    · exact extendsBy_refl _
  | speechResult t =>
    dsimp only [stepE]
    split <;> exact extendsBy_refl _
  | speechEnd => exact extendsBy_refl _
  | toggleTts => exact extendsBy_of_eq (toggleTtsStep_history s).symm
  | voicesLoaded n => exact extendsBy_refl _
  | readAloud t =>
    dsimp only [stepE]
    split
    · exact extendsBy_of_eq (handleReadAloud_history t s).symm
    · exact extendsBy_refl _
  | startTTT => exact extends_startTicTacToe s
  | startChess => exact extends_startChessGame E s
  | forfeit =>
    dsimp only [stepE]
    split
    · exact extends_endGame s
    · exact extendsBy_refl _
  | tttClick r c idx =>
    dsimp only [stepE]
    split
    · split
      · exact extends_handlePlayerMove r c _ s
      · exact extendsBy_refl _
    · exact extendsBy_refl _
  | fireTTT b choice =>
    dsimp only [stepE]
    split
    · exact extends_handleAiMove b choice { s with scheduledTTT := s.scheduledTTT.erase b }
    · exact extendsBy_refl _
  | chessClick m =>
    dsimp only [stepE]
    split
    · exact extends_handlePlayerChessMove E m s
    · exact extendsBy_refl _
  | fireChess choice =>
    dsimp only [stepE]
    split
    · exact extends_handleAiChessMove E choice
        { s with scheduledChess := s.scheduledChess - 1 }
    · exact extendsBy_refl _

/-! ### Stream chunks target the handle's entry by id -/

/-- C2 counterexample: a chunk arriving after a later entry was appended is
NOT dropped.  After `submit` (pending entry id 2) and `startTTT` (later
entries appended, so the last entry's id no longer matches the handle), a
chunk still mutates the store. -/
theorem chunk_dropped_counterexample :
    ¬ (∀ (s : AppState Unit) (p : Pending) (t : String),
        Reachable unitEngine s → s.pending = some p →
        s.history.getLast?.map Entry.id ≠ some p.msgId →
        stepE unitEngine (.chunk t) s = s) := by
  intro h
  have h1 := h (run unitEngine [.setInput "hi", .submit, .startTTT])
    { msgId := 2, full := "", ttsAtSubmit := true, voicesAtSubmit := 0 } "Hel"
    ⟨_, rfl⟩ (by decide) (by decide)
  have h2 := congrArg (fun st : AppState Unit => st.history.get? 2) h1
  exact absurd h2 (by decide)

/-- C2 (amended): a chunk delivered on a pending stream handle is not dropped
when the handle's entry is no longer last — it still appends the chunk text to
the entry with the handle's id, wherever that entry sits — but it alters no
other entry (in particular no later-appended entry B) and neither adds nor
removes entries. -/
theorem chunk_targets_only_handle_entry (E : ChessEngine Pos) (s : AppState Pos)
    (p : Pending) (t : String) (hp : s.pending = some p) :
    ((stepE E (.chunk t) s).history.length = s.history.length) ∧
    (∀ i e, s.history.get? i = some e →
      (e.id ≠ p.msgId → (stepE E (.chunk t) s).history.get? i = some e) ∧
      (e.id = p.msgId →
        (stepE E (.chunk t) s).history.get? i
          = some { e with text := some ((e.text.getD "") ++ t) })) := by
  dsimp only [stepE]
  unfold applyChunk
  rw [hp]
  refine ⟨by simp, fun i e he => ⟨fun hne => ?_, fun heq => ?_⟩⟩
  · rw [List.get?_map, he]
    simp [hne]
  · rw [List.get?_map, he]
    simp [heq]

/-- The live initial-board entry appended by `startTTT` in the stale-chunk
scenario (the later entry B). -/
def laterBoardEntry : Entry :=
  { id := 4, role := .model, text := none, widget := some (.ttt emptyBoard "playing" true) }

/-- The pending streaming entry of the stale-chunk scenario (entry A). -/
def pendingEntryBefore : Entry :=
  { id := 2, role := .model, text := some "", widget := none }

/-- Concrete instance of `chunk_targets_only_handle_entry`: in the stale
situation of the counterexample, the later board entry (id 4) is untouched
while the handle's entry (id 2) receives the chunk text. -/
theorem chunk_targets_only_handle_entry_witness :
    ((stepE unitEngine (.chunk "Hel")
        (run unitEngine [.setInput "hi", .submit, .startTTT])).history.get? 4
      = some laterBoardEntry) ∧
    ((stepE unitEngine (.chunk "Hel")
        (run unitEngine [.setInput "hi", .submit, .startTTT])).history.get? 2
      = some { id := 2, role := .model, text := some "Hel", widget := none }) := by
  have h := chunk_targets_only_handle_entry unitEngine
    (run unitEngine [.setInput "hi", .submit, .startTTT])
    { msgId := 2, full := "", ttsAtSubmit := true, voicesAtSubmit := 0 } "Hel" (by decide)
  constructor
  · exact (h.2 4 laterBoardEntry (by decide)).1 (by decide)
  · have h2 := (h.2 2 pendingEntryBefore (by decide)).2 rfl
    rw [h2]
    decide

/-! ### Forfeit and the scheduled AI-ply timer -/

/-- The board captured by the AI-ply timer in the forfeit scenario: the human
played X at (0,0) on the initial board. -/
def forfeitBoard : Board := setCell emptyBoard 0 0 Mark.X

/-- C3 evaluation: start tic-tac-toe, play (0,0) — scheduling the AI-ply
timer — then forfeit.  The forfeit does return the state to no-active-game
and appends exactly one concluding entry, but the still-pending timer is NOT
a no-op when it fires: `handleAiMove` performs no validity check, so it
appends a board-widget entry to the already-concluded session. -/
theorem forfeit_timer_fires_anyway :
    (run unitEngine [.startTTT, .tttClick 0 0 2, .forfeit]).activeGame = ActiveGame.none ∧
    (run unitEngine [.startTTT, .tttClick 0 0 2, .forfeit]).history.length
      = (run unitEngine [.startTTT, .tttClick 0 0 2]).history.length + 1 ∧
    (run unitEngine [.startTTT, .tttClick 0 0 2, .forfeit]).scheduledTTT = [forfeitBoard] ∧
    (stepE unitEngine (.fireTTT forfeitBoard 0)
        (run unitEngine [.startTTT, .tttClick 0 0 2, .forfeit])).history.length
      = (run unitEngine [.startTTT, .tttClick 0 0 2, .forfeit]).history.length + 1 := by
  refine ⟨by decide, by decide, by decide, by decide⟩

/-! ### Mode exclusivity -/

/-- Number of simultaneously active members of the exclusivity class
{sending, listening, game-active}. -/
def activeModeCount (s : AppState Pos) : Nat :=
  (if s.isLoading then 1 else 0) + (if s.isListening then 1 else 0) +
    (if s.activeGame ≠ ActiveGame.none then 1 else 0)

/-- C4 counterexample: the exclusivity class is violated on a reachable
state — starting a capture session and then starting a game (the game-center
control is not gated on listening or sending) leaves both listening and
game-active on. -/
theorem mode_exclusivity_counterexample :
    ¬ (∀ s : AppState Unit, Reachable unitEngine s → activeModeCount s ≤ 1) := by
  intro h
  have h1 := h (run unitEngine [.listenClick, .startTTT]) ⟨_, rfl⟩
  exact absurd h1 (by decide)

/-- Both states agree on the sending and listening flags. -/
def FlagsEq (s s' : AppState Pos) : Prop :=
  s'.isLoading = s.isLoading ∧ s'.isListening = s.isListening

lemma flagsEq_refl (s : AppState Pos) : FlagsEq s s := ⟨rfl, rfl⟩

lemma flagsEq_trans {s₁ s₂ s₃ : AppState Pos} (a : FlagsEq s₁ s₂) (b : FlagsEq s₂ s₃) :
    FlagsEq s₁ s₃ := ⟨b.1.trans a.1, b.2.trans a.2⟩

lemma flagsEq_appendEntry (s : AppState Pos) (r : Role) (t : Option String)
    (w : Option Widget) : FlagsEq s (appendEntry s r t w) := ⟨rfl, rfl⟩

lemma flagsEq_speakWith (v : Nat) (s : AppState Pos) (t : String) :
    FlagsEq s (speakWith v s t) := by
  unfold speakWith
  split <;> exact ⟨rfl, rfl⟩

lemma flagsEq_speak (s : AppState Pos) (t : String) : FlagsEq s (speak s t) :=
  flagsEq_speakWith s.voices s t

lemma flagsEq_endGame (s : AppState Pos) : FlagsEq s (endGame s) := ⟨rfl, rfl⟩

lemma flagsEq_handlePlayerMove (r c : Fin 3) (b : Board) (s : AppState Pos) :
    FlagsEq s (handlePlayerMove r c b s) := by
  unfold handlePlayerMove
  split
  · exact flagsEq_refl _
  · dsimp only
    split <;> exact ⟨rfl, rfl⟩

lemma flagsEq_handleAiMove (b : Board) (choice : Nat) (s : AppState Pos) :
    FlagsEq s (handleAiMove b choice s) := by
  unfold handleAiMove
  dsimp only
  split <;> exact ⟨rfl, rfl⟩

lemma flagsEq_handleChessGameOver (E : ChessEngine Pos) (s : AppState Pos) :
    FlagsEq s (handleChessGameOver E s) := by
  unfold handleChessGameOver
  split <;> exact ⟨rfl, rfl⟩

lemma flagsEq_handlePlayerChessMove (E : ChessEngine Pos) (m : ChessMove)
    (s : AppState Pos) : FlagsEq s (handlePlayerChessMove E m s) := by
  unfold handlePlayerChessMove
  split
  · exact flagsEq_refl _
  · split
    · exact flagsEq_refl _
    · split
      · exact flagsEq_refl _
      · dsimp only
        split
        · refine flagsEq_trans ?_ (flagsEq_handleChessGameOver _ _)
          exact ⟨rfl, rfl⟩
        · exact ⟨rfl, rfl⟩

lemma flagsEq_handleAiChessMove (E : ChessEngine Pos) (choice : Nat)
    (s : AppState Pos) : FlagsEq s (handleAiChessMove E choice s) := by
  unfold handleAiChessMove
  split
  · exact flagsEq_refl _
  · split
    · exact flagsEq_refl _
    · split
      · exact flagsEq_refl _
      · split
        · exact flagsEq_refl _
        · dsimp only
          split
          · refine flagsEq_trans ?_ (flagsEq_handleChessGameOver _ _)
            refine flagsEq_trans ?_ (flagsEq_appendEntry _ _ _ _)
            split
            · exact ⟨rfl, rfl⟩
            · exact flagsEq_refl _
          · refine flagsEq_trans ?_ (flagsEq_appendEntry _ _ _ _)
            split
            · exact ⟨rfl, rfl⟩
            · exact flagsEq_refl _

lemma flagsEq_startTicTacToe (s : AppState Pos) : FlagsEq s (startTicTacToe s) :=
  ⟨rfl, rfl⟩

lemma flagsEq_startChessGame (E : ChessEngine Pos) (s : AppState Pos) :
    FlagsEq s (startChessGame E s) := ⟨rfl, rfl⟩

lemma flagsEq_handleReadAloud (t : String) (s : AppState Pos) :
    FlagsEq s (handleReadAloud t s) := by
  unfold handleReadAloud
  split
  · exact flagsEq_refl _
  · exact flagsEq_speak _ _

lemma flagsEq_toggleTtsStep (s : AppState Pos) : FlagsEq s (toggleTtsStep s) := by
  unfold toggleTtsStep
  split <;> exact ⟨rfl, rfl⟩

lemma flagsEq_applyChunk (t : String) (s : AppState Pos) : FlagsEq s (applyChunk t s) := by
  unfold applyChunk
  split <;> exact ⟨rfl, rfl⟩

/-- Helper: `handleSubmitStart` either leaves the state untouched or ends with the
capture flag off (it stops any capture as part of submitting). -/
lemma handleSubmitStart_notListening (s : AppState Pos) :
    (handleSubmitStart s).isListening = false ∨ handleSubmitStart s = s := by
  unfold handleSubmitStart
  split
  · exact Or.inr rfl
  · left
    dsimp only
    split
    · rfl
    · next hnl =>
      simpa using hnl

/-- Helper: `streamDone` either leaves the state untouched or ends with loading off. -/
lemma streamDone_notLoading (s : AppState Pos) :
    (streamDone s).isLoading = false ∨ streamDone s = s := by
  unfold streamDone
  split
  · exact Or.inr rfl
  · left
    dsimp only
    split
    · rw [(flagsEq_speakWith _ _ _).1]
    · rfl

/-- Helper: `streamFailStep` either leaves the state untouched or ends with loading off. -/
lemma streamFailStep_notLoading (s : AppState Pos) :
    (streamFailStep s).isLoading = false ∨ streamFailStep s = s := by
  unfold streamFailStep
  split
  · exact Or.inr rfl
  · left
    dsimp only
    split
    · rw [(flagsEq_speakWith _ _ _).1]
    · rfl

/-- Never both sending and listening. -/
def NotBothSL (s : AppState Pos) : Prop :=
  ¬ (s.isLoading = true ∧ s.isListening = true)

lemma notBothSL_of_flagsEq {s s' : AppState Pos} (h : NotBothSL s) (hf : FlagsEq s s') :
    NotBothSL s' := fun hc => h ⟨hf.1 ▸ hc.1, hf.2 ▸ hc.2⟩

lemma step_preserves_notBothSL (E : ChessEngine Pos) (e : Ev) (s : AppState Pos)
    (h : NotBothSL s) : NotBothSL (stepE E e s) := by
  cases e with
  | setInput t =>
    dsimp only [stepE]
    split
    · exact fun hc => h ⟨hc.1, hc.2⟩
    · exact h
  | submit =>
    dsimp only [stepE]
    split
    · rcases handleSubmitStart_notListening s with hl | hid
      · exact fun hc => by rw [hl] at hc; exact Bool.false_ne_true hc.2
      · rw [hid]; exact h
    · exact h
  | chunk t => exact notBothSL_of_flagsEq h (flagsEq_applyChunk t s)
  | streamEnd =>
    show NotBothSL (streamDone s)
    rcases streamDone_notLoading s with hl | hid
    · exact fun hc => by rw [hl] at hc; exact Bool.false_ne_true hc.1
    · rw [hid]; exact h
  | streamFail =>
    show NotBothSL (streamFailStep s)
    rcases streamFailStep_notLoading s with hl | hid
    · exact fun hc => by rw [hl] at hc; exact Bool.false_ne_true hc.1
    · rw [hid]; exact h
  | listenClick =>
    dsimp only [stepE]
    split
    · unfold handleListenClick
      split
      · exact h
      · next hnl => exact fun hc => hnl hc.1
    · exact h
  | speechResult t =>
    dsimp only [stepE]
    split
    · exact fun hc => h ⟨hc.1, hc.2⟩
    · exact h
  | speechEnd => exact fun hc => Bool.false_ne_true hc.2
  | toggleTts => exact notBothSL_of_flagsEq h (flagsEq_toggleTtsStep s)
  | voicesLoaded n => exact fun hc => h ⟨hc.1, hc.2⟩
  | readAloud t =>
    dsimp only [stepE]
    split
    · exact notBothSL_of_flagsEq h (flagsEq_handleReadAloud t s)
    · exact h
  | startTTT => exact notBothSL_of_flagsEq h (flagsEq_startTicTacToe s)
  | startChess => exact notBothSL_of_flagsEq h (flagsEq_startChessGame E s)
  | forfeit =>
    dsimp only [stepE]
    split
    · exact notBothSL_of_flagsEq h (flagsEq_endGame s)
    · exact h
  | tttClick r c idx =>
    dsimp only [stepE]
    split
    · split
      · exact notBothSL_of_flagsEq h (flagsEq_handlePlayerMove r c _ s)
      · exact h
    · exact h
  | fireTTT b choice =>
    dsimp only [stepE]
    split
    · exact notBothSL_of_flagsEq h
        (flagsEq_handleAiMove b choice { s with scheduledTTT := s.scheduledTTT.erase b })
    · exact h
  | chessClick m =>
    dsimp only [stepE]
    split
    · exact notBothSL_of_flagsEq h (flagsEq_handlePlayerChessMove E m s)
    · exact h
  | fireChess choice =>
    dsimp only [stepE]
    split
    · exact notBothSL_of_flagsEq h
        (flagsEq_handleAiChessMove E choice { s with scheduledChess := s.scheduledChess - 1 })
    · exact h

/-- Invariants proved by induction along the event trace. -/
lemma reachable_invariant (E : ChessEngine Pos) {P : AppState Pos → Prop}
    (hstep : ∀ e s, P s → P (stepE E e s)) (hinit : P initState) :
    ∀ s, Reachable E s → P s := by
  have haux : ∀ (l : List Ev) (s0 : AppState Pos), P s0 →
      P (l.foldl (fun s e => stepE E e s) s0) := by
    intro l
    induction l with
    | nil => exact fun s0 h0 => h0
    | cons e l ih => exact fun s0 h0 => ih _ (hstep e s0 h0)
  rintro s ⟨evs, rfl⟩
  exact haux evs initState hinit

/-- C4 (amended): at every reachable instant at most one of {sending,
listening} is active; game-active is not exclusive with either (a game may
be started while sending or listening). -/
theorem sending_listening_exclusive (E : ChessEngine Pos) (s : AppState Pos)
    (h : Reachable E s) : NotBothSL s :=
  reachable_invariant E (step_preserves_notBothSL E)
    (fun hc => Bool.false_ne_true hc.1) s h

/-- Witness: `sending_listening_exclusive` at the initial session state. -/
theorem sending_listening_exclusive_witness : NotBothSL (initState : AppState Unit) :=
  sending_listening_exclusive unitEngine initState ⟨[], rfl⟩

/-! ### Intents during Sending -/

/-- C5 counterexample: while a reply is in flight, a start-game intent is NOT
a no-op — after `submit`, `startTTT` still activates the game. -/
theorem sending_blocks_startGame_counterexample :
    ¬ (∀ s : AppState Unit, Reachable unitEngine s → s.isLoading = true →
        stepE unitEngine .listenClick s = s ∧
        stepE unitEngine .startTTT s = s ∧
        stepE unitEngine .startChess s = s) := by
  intro h
  have h1 := (h (run unitEngine [.setInput "hi", .submit]) ⟨_, rfl⟩ (by decide)).2.1
  have h2 := congrArg (fun st : AppState Unit => st.activeGame) h1
  exact absurd h2 (by decide)

/-- C5 (amended): while a model reply is in flight, a start-capture intent is
a no-op (state unchanged, no capture starts), but a start-game intent is
accepted: it activates the chosen game and appends its two intro entries. -/
theorem sending_blocks_capture_not_games (E : ChessEngine Pos) (s : AppState Pos)
    (h : s.isLoading = true) :
    stepE E .listenClick s = s ∧
    (stepE E .startTTT s).activeGame = ActiveGame.tictactoe ∧
    (stepE E .startTTT s).history.length = s.history.length + 2 ∧
    (stepE E .startChess s).activeGame = ActiveGame.chess ∧
    (stepE E .startChess s).history.length = s.history.length + 2 := by
  refine ⟨?_, rfl, ?_, rfl, ?_⟩
  · dsimp only [stepE]
    split
    · unfold handleListenClick
      simp [h]
    · rfl
  · simp [stepE, startTicTacToe, appendEntry]
  · simp [stepE, startChessGame, appendEntry]

/-- Witness: `sending_blocks_capture_not_games` in the sending state reached by a
submit of "hi". -/
theorem sending_blocks_capture_not_games_witness :
    stepE unitEngine .listenClick (run unitEngine [.setInput "hi", .submit])
      = run unitEngine [.setInput "hi", .submit] ∧
    (stepE unitEngine .startTTT (run unitEngine [.setInput "hi", .submit])).activeGame
      = ActiveGame.tictactoe := by
  have h := sending_blocks_capture_not_games unitEngine
    (run unitEngine [.setInput "hi", .submit]) (by decide)
  exact ⟨h.1, h.2.1⟩

/-! ### Human move validation -/

/-- The entry at `idx` carries a tic-tac-toe board widget. -/
def tttWidgetAt (s : AppState Pos) (idx : Nat) : Prop :=
  ∃ e, s.history.get? idx = some e ∧ ∃ b st lv, e.widget = some (.ttt b st lv)

/-- The board widget at `idx` has been superseded by a later board widget. -/
def StaleTTTWidget (s : AppState Pos) (idx : Nat) : Prop :=
  tttWidgetAt s idx ∧ ∃ j, idx < j ∧ tttWidgetAt s j

/-- The initial live board entry appended by `startTTT` as the first event
of a session. -/
def startBoardEntry : Entry :=
  { id := 2, role := .model, text := none, widget := some (.ttt emptyBoard "playing" true) }

/-- The AI reply board entry in the stale-board scenario. -/
def aiReplyBoardEntry : Entry :=
  { id := 4, role := .model, text := none,
    widget := some (.ttt (aiNewBoard forfeitBoard 0) "playing" true) }

/-- C6 counterexample: a human move issued against a stale, already-superseded
board snapshot is NOT rejected.  After the human plays (0,0) and the AI
replies, the initial (now stale) board widget is still live; clicking its
empty cell (1,1) is accepted and appends an entry. -/
theorem stale_board_click_counterexample :
    ¬ (∀ (s : AppState Unit) (r c : Fin 3) (idx : Nat),
        Reachable unitEngine s → StaleTTTWidget s idx →
        stepE unitEngine (.tttClick r c idx) s = s) := by
  intro h
  have hst : StaleTTTWidget
      (run unitEngine [.startTTT, .tttClick 0 0 2, .fireTTT forfeitBoard 0]) 2 := by
    refine ⟨⟨startBoardEntry, by decide, emptyBoard, "playing", true, rfl⟩,
      4, by norm_num, ⟨aiReplyBoardEntry, by decide, aiNewBoard forfeitBoard 0,
        "playing", true, rfl⟩⟩
  have h1 := h (run unitEngine [.startTTT, .tttClick 0 0 2, .fireTTT forfeitBoard 0])
    1 1 2 ⟨_, rfl⟩ hst
  have h2 := congrArg (fun st : AppState Unit => st.history.length) h1
  exact absurd h2 (by decide)

/-- C6 (amended): chess move requests are validated against the live
GameState — requests with no active engine, on a finished game, or illegal
for the engine are rejected with no state change and no appended entry.
Tic-tac-toe clicks are validated only against the snapshot board the clicked
widget closed over: occupied-cell or already-decided snapshot boards are
rejected with no state change, but a click on a cell that is empty in the
snapshot is accepted (and appends) even when the snapshot is stale. -/
theorem move_validation (E : ChessEngine Pos) :
    (∀ (s : AppState Pos) (m : ChessMove),
      s.chessPos = none → handlePlayerChessMove E m s = s) ∧
    (∀ (s : AppState Pos) (m : ChessMove) (pos : Pos), s.chessPos = some pos →
      E.isGameOver pos = true → handlePlayerChessMove E m s = s) ∧
    (∀ (s : AppState Pos) (m : ChessMove) (pos : Pos), s.chessPos = some pos →
      E.isGameOver pos = false → E.moveReq pos m = none → handlePlayerChessMove E m s = s) ∧
    (∀ (s : AppState Pos) (r c : Fin 3) (b : Board),
      (b r c).isSome = true ∨ (checkWinner b).isSome = true →
      handlePlayerMove r c b s = s) ∧
    (∀ (s : AppState Pos) (r c : Fin 3) (b : Board),
      b r c = none → checkWinner b = none →
      s.history.length < (handlePlayerMove r c b s).history.length) := by
  refine ⟨?_, ?_, ?_, ?_, ?_⟩
  · intro s m hnone
    unfold handlePlayerChessMove
    rw [hnone]
  · intro s m pos hp hov
    unfold handlePlayerChessMove
    rw [hp]
    simp [hov]
  · intro s m pos hp hov hm
    unfold handlePlayerChessMove
    rw [hp]
    simp [hov, hm]
  · intro s r c b hrej
    unfold handlePlayerMove
    rw [if_pos hrej]
  · intro s r c b hcell hwin
    unfold handlePlayerMove
    rw [if_neg (by simp [hcell, hwin])]
    dsimp only
    split <;> simp [endGame, appendEntry]

/-- Witness: `move_validation` at concrete inputs: an illegal chess request right
after `startChess` is a no-op; a click on the occupied cell (0,0) of the
snapshot is a no-op; a click on an empty cell of the empty board appends. -/
theorem move_validation_witness :
    handlePlayerChessMove unitEngine { fromSq := "e2", toSq := "e4", promotion := "q" }
        (run unitEngine [.startChess]) = run unitEngine [.startChess] ∧
    handlePlayerMove 0 0 forfeitBoard (initState : AppState Unit) = initState ∧
    (initState : AppState Unit).history.length
      < (handlePlayerMove 1 1 emptyBoard (initState : AppState Unit)).history.length := by
  refine ⟨?_, ?_, ?_⟩
  · exact (move_validation unitEngine).2.2.1 (run unitEngine [.startChess])
      { fromSq := "e2", toSq := "e4", promotion := "q" } () (by decide) rfl rfl
  · exact (move_validation unitEngine).2.2.2.1 initState 0 0 forfeitBoard
      (Or.inl (by decide))
  · exact (move_validation unitEngine).2.2.2.2 initState 1 1 emptyBoard rfl (by decide)

/-! ### Transport failure recovery -/

lemma speakWith_pending (v : Nat) (s : AppState Pos) (t : String) :
    (speakWith v s t).pending = s.pending := by
  unfold speakWith
  split <;> rfl

/-- An accepted submission turns loading on and appends exactly the user
entry and the empty pending assistant entry. -/
lemma handleSubmitStart_accepts (s : AppState Pos) (hb : blankInput s.userInput = false)
    (hl : s.isLoading = false) :
    (handleSubmitStart s).isLoading = true ∧
    (handleSubmitStart s).history.length = s.history.length + 2 := by
  unfold handleSubmitStart
  rw [if_neg (by simp [hb, hl])]
  constructor
  · dsimp only
    split <;> rfl
  · dsimp only
    split <;> simp [appendEntry]

/-- C7: on any transport failure the pending assistant entry is replaced
wholesale with the fixed apology text (no partial chunk text remains in it),
every other entry is untouched, the Sending state ends, and — with the game
footer absent and a non-blank input — a subsequent submission is accepted
again. -/
theorem transport_failure_recovery (E : ChessEngine Pos) (s : AppState Pos)
    (p : Pending) (hp : s.pending = some p) :
    ((stepE E .streamFail s).history.length = s.history.length) ∧
    (∀ i e, s.history.get? i = some e →
      (e.id = p.msgId →
        (stepE E .streamFail s).history.get? i = some { e with text := some apologyText }) ∧
      (e.id ≠ p.msgId → (stepE E .streamFail s).history.get? i = some e)) ∧
    (stepE E .streamFail s).isLoading = false ∧
    (stepE E .streamFail s).pending = none ∧
    (∀ t : String, blankInput t = false →
      (stepE E .streamFail s).activeGame = ActiveGame.none →
      (stepE E .submit { stepE E .streamFail s with userInput := t }).isLoading = true ∧
      (stepE E .submit { stepE E .streamFail s with userInput := t }).history.length
        = s.history.length + 2) := by
  have hhist : (stepE E .streamFail s).history
      = s.history.map (fun (msg : Entry) =>
          if msg.id = p.msgId then { msg with text := some apologyText } else msg) := by
    show (streamFailStep s).history = _
    unfold streamFailStep
    rw [hp]
    dsimp only
    split
    · rw [speakWith_history]
    · rfl
  have hload : (stepE E .streamFail s).isLoading = false := by
    show (streamFailStep s).isLoading = false
    unfold streamFailStep
    rw [hp]
    dsimp only
    split
    · rw [(flagsEq_speakWith _ _ _).1]
    · rfl
  have hpend : (stepE E .streamFail s).pending = none := by
    show (streamFailStep s).pending = none
    unfold streamFailStep
    rw [hp]
    dsimp only
    split
    · rw [speakWith_pending]
    · rfl
  have hlen : (stepE E .streamFail s).history.length = s.history.length := by
    rw [hhist]
    simp
  refine ⟨hlen, ?_, hload, hpend, ?_⟩
  · intro i e he
    constructor
    · intro heq
      rw [hhist, List.get?_map, he]
      simp [heq]
    · intro hne
      rw [hhist, List.get?_map, he]
      simp [hne]
  · intro t hb hg
    have hacc := handleSubmitStart_accepts
      { stepE E .streamFail s with userInput := t } hb hload
    have hx : ({ stepE E .streamFail s with userInput := t } : AppState Pos).history.length
        = s.history.length := hlen
    dsimp only [stepE]
    split
    · exact ⟨hacc.1, hacc.2.trans (congrArg (fun n => n + 2) hx)⟩
    · next hng => exact absurd hg hng

/-- Witness: `transport_failure_recovery` in the sending state reached by submitting
"hi": the pending entry (id 2) becomes the apology, the greeting (id 0) is
untouched, loading ends, and submitting "again" is accepted. -/
theorem transport_failure_recovery_witness :
    ((stepE unitEngine .streamFail (run unitEngine [.setInput "hi", .submit])).history.get? 2
      = some { id := 2, role := .model, text := some apologyText, widget := none }) ∧
    ((stepE unitEngine .streamFail (run unitEngine [.setInput "hi", .submit])).history.get? 0
      = some { id := 0, role := .model, text := some greetingText, widget := none }) ∧
    (stepE unitEngine .streamFail (run unitEngine [.setInput "hi", .submit])).isLoading
      = false ∧
    (stepE unitEngine .submit { stepE unitEngine .streamFail
        (run unitEngine [.setInput "hi", .submit]) with userInput := "again" }).isLoading
      = true := by
  have h := transport_failure_recovery unitEngine (run unitEngine [.setInput "hi", .submit])
    { msgId := 2, full := "", ttsAtSubmit := true, voicesAtSubmit := 0 } (by decide)
  refine ⟨?_, ?_, h.2.2.1, (h.2.2.2.2 "again" (by decide) (by decide)).1⟩
  · have h2 := (h.2.1 2 pendingEntryBefore (by decide)).1 rfl
    rw [h2]
    decide
  · exact (h.2.1 0 { id := 0, role := .model, text := some greetingText, widget := none }
      (by decide)).2 (by decide)

/-! ### checkWinner on the diagonal and on full boards -/

/-- The board `[[X,_,_],[_,X,_],[_,_,_]]` of the spec's test vector. -/
def diagTwoBoard : Board := fun i j =>
  if (i = 0 ∧ j = 0) ∨ (i = 1 ∧ j = 1) then some Mark.X else none

/-- A full board with no three-in-a-row line: X X O / O O X / X X O. -/
def fullNoLineF : Fin 3 → Fin 3 → Mark := fun i j =>
  if i = 1 then (if j = 2 then Mark.X else Mark.O)
  else (if j = 2 then Mark.O else Mark.X)

set_option maxRecDepth 100000 in
/-- C8: on the board `[[X,_,_],[_,X,_],[_,_,_]]`, the move X at (2,2) makes
`checkWinner` report the diagonal win for X and `handlePlayerMove` schedules
no AI ply; and `checkWinner` on every completely filled board containing no
three-in-a-row line returns Draw. -/
theorem checkWinner_diag_and_draw :
    checkWinner (setCell diagTwoBoard 2 2 Mark.X) = some TTTRes.X ∧
    (∀ (Q : Type) (s : AppState Q),
      (handlePlayerMove 2 2 diagTwoBoard s).scheduledTTT = s.scheduledTTT) ∧
    (∀ f : Fin 3 → Fin 3 → Mark,
      (boardLines (fun i j => some (f i j))).all (fun l => (lineWinner l).isNone) = true →
      checkWinner (fun i j => some (f i j)) = some TTTRes.draw) := by
  refine ⟨by decide, ?_, by decide⟩
  intro Q s
  unfold handlePlayerMove
  rw [if_neg (by decide)]
  dsimp only
  rw [show checkWinner (setCell diagTwoBoard 2 2 Mark.X) = some TTTRes.X from by decide]
  rfl

/-- Witness: `checkWinner_diag_and_draw` instantiated: no ply scheduled from the
initial state, and the concrete no-line full board is a draw. -/
theorem checkWinner_diag_and_draw_witness :
    (handlePlayerMove 2 2 diagTwoBoard (initState : AppState Unit)).scheduledTTT
      = (initState : AppState Unit).scheduledTTT ∧
    checkWinner (fun i j => some (fullNoLineF i j)) = some TTTRes.draw :=
  ⟨checkWinner_diag_and_draw.2.1 Unit initState,
   checkWinner_diag_and_draw.2.2 fullNoLineF (by decide)⟩

/-! ### When playback sessions start -/

lemma countEq_endGame (s : AppState Pos) : (endGame s).speakCount = s.speakCount := rfl

lemma countEq_startTicTacToe (s : AppState Pos) :
    (startTicTacToe s).speakCount = s.speakCount := rfl

lemma countEq_startChessGame (E : ChessEngine Pos) (s : AppState Pos) :
    (startChessGame E s).speakCount = s.speakCount := rfl

lemma countEq_handlePlayerMove (r c : Fin 3) (b : Board) (s : AppState Pos) :
    (handlePlayerMove r c b s).speakCount = s.speakCount := by
  unfold handlePlayerMove
  split
  · rfl
  · dsimp only
    split <;> rfl

lemma countEq_handleAiMove (b : Board) (choice : Nat) (s : AppState Pos) :
    (handleAiMove b choice s).speakCount = s.speakCount := by
  unfold handleAiMove
  dsimp only
  split <;> rfl

lemma countEq_handleChessGameOver (E : ChessEngine Pos) (s : AppState Pos) :
    (handleChessGameOver E s).speakCount = s.speakCount := by
  unfold handleChessGameOver
  split <;> rfl

lemma countEq_handlePlayerChessMove (E : ChessEngine Pos) (m : ChessMove)
    (s : AppState Pos) : (handlePlayerChessMove E m s).speakCount = s.speakCount := by
  unfold handlePlayerChessMove
  split
  · rfl
  · split
    · rfl
    · split
      · rfl
      · dsimp only
        split
        · rw [countEq_handleChessGameOver]
          rfl
        · rfl

lemma countEq_handleAiChessMove (E : ChessEngine Pos) (choice : Nat) (s : AppState Pos) :
    (handleAiChessMove E choice s).speakCount = s.speakCount := by
  unfold handleAiChessMove
  split
  · rfl
  · split
    · rfl
    · split
      · rfl
      · split
        · rfl
        · dsimp only
          split
          · rw [countEq_handleChessGameOver]
            dsimp only [appendEntry]
            split <;> rfl
          · dsimp only [appendEntry]
            split <;> rfl

lemma countEq_handleSubmitStart (s : AppState Pos) :
    (handleSubmitStart s).speakCount = s.speakCount := by
  unfold handleSubmitStart
  split
  · rfl
  · dsimp only
    split <;> rfl

lemma countEq_applyChunk (t : String) (s : AppState Pos) :
    (applyChunk t s).speakCount = s.speakCount := by
  unfold applyChunk
  split <;> rfl

lemma countEq_toggleTtsStep (s : AppState Pos) :
    (toggleTtsStep s).speakCount = s.speakCount := by
  unfold toggleTtsStep
  split <;> rfl

lemma countEq_handleListenClick (s : AppState Pos) :
    (handleListenClick s).speakCount = s.speakCount := by
  unfold handleListenClick
  split <;> rfl

/-- C9 counterexample: a playback session can start while voice output is
disabled — after toggling TTS off, the Read Aloud action on the greeting
still starts playback (`handleReadAloud` never consults the TTS flag). -/
theorem playback_requires_tts_counterexample :
    ¬ (∀ (s : AppState Unit) (e : Ev), Reachable unitEngine s →
        s.speakCount < (stepE unitEngine e s).speakCount → s.isTtsEnabled = true) := by
  intro h
  have h1 := h (run unitEngine [.voicesLoaded 1, .toggleTts]) (.readAloud greetingText)
    ⟨_, rfl⟩ (by decide)
  exact absurd h1 (by decide)

/-- C9 (amended): a playback session starts only through the Read Aloud
action or through the end (completion or failure) of a stream whose
submission captured the TTS flag as on: the finally block consults the
submit-time stale-closure capture of the flag, not its current value, and
no other event starts playback.  (So toggling TTS off mid-stream does not
prevent the post-stream playback, and Read Aloud plays regardless of the
flag.) -/
theorem playback_only_readAloud_or_captured_tts (E : ChessEngine Pos) (e : Ev)
    (s : AppState Pos) (h : s.speakCount < (stepE E e s).speakCount) :
    (∃ t, e = Ev.readAloud t) ∨
    (∃ p : Pending, s.pending = some p ∧ p.ttsAtSubmit = true ∧
      (e = Ev.streamEnd ∨ e = Ev.streamFail)) := by
  cases e with
  | setInput t =>
    dsimp only [stepE] at h
    split at h <;> exact absurd h (lt_irrefl _)
  | submit =>
    dsimp only [stepE] at h
    split at h
    · rw [countEq_handleSubmitStart] at h
      exact absurd h (lt_irrefl _)
    · exact absurd h (lt_irrefl _)
  | chunk t =>
    dsimp only [stepE] at h
    rw [countEq_applyChunk] at h
    exact absurd h (lt_irrefl _)
  | streamEnd =>
    have h' : s.speakCount < (streamDone s).speakCount := h
    unfold streamDone at h'
    split at h'
    · exact absurd h' (lt_irrefl _)
    · next p hp =>
      by_cases hT : p.ttsAtSubmit = true
      · exact Or.inr ⟨p, hp, hT, Or.inl rfl⟩
      · rw [if_neg (fun hc => hT hc.1)] at h'
        exact absurd h' (lt_irrefl _)
  | streamFail =>
    have h' : s.speakCount < (streamFailStep s).speakCount := h
    unfold streamFailStep at h'
    split at h'
    · exact absurd h' (lt_irrefl _)
    · next p hp =>
      by_cases hT : p.ttsAtSubmit = true
      · exact Or.inr ⟨p, hp, hT, Or.inr rfl⟩
      · rw [if_neg hT] at h'
        exact absurd h' (lt_irrefl _)
  | listenClick =>
    dsimp only [stepE] at h
    split at h
    · rw [countEq_handleListenClick] at h
      exact absurd h (lt_irrefl _)
    · exact absurd h (lt_irrefl _)
  | speechResult t =>
    dsimp only [stepE] at h
    split at h <;> exact absurd h (lt_irrefl _)
  | speechEnd => exact absurd h (lt_irrefl _)
  | toggleTts =>
    dsimp only [stepE] at h
    rw [countEq_toggleTtsStep] at h
    exact absurd h (lt_irrefl _)
  | voicesLoaded n => exact absurd h (lt_irrefl _)
  | readAloud t => exact Or.inl ⟨t, rfl⟩
  | startTTT =>
    dsimp only [stepE] at h
    rw [countEq_startTicTacToe] at h
    exact absurd h (lt_irrefl _)
  | startChess =>
    dsimp only [stepE] at h
    rw [countEq_startChessGame] at h
    exact absurd h (lt_irrefl _)
  | forfeit =>
    dsimp only [stepE] at h
    split at h
    · rw [countEq_endGame] at h
      exact absurd h (lt_irrefl _)
    · exact absurd h (lt_irrefl _)
  | tttClick r c idx =>
    dsimp only [stepE] at h
    split at h
    · split at h
      · rw [countEq_handlePlayerMove] at h
        exact absurd h (lt_irrefl _)
      · exact absurd h (lt_irrefl _)
    · exact absurd h (lt_irrefl _)
  | fireTTT b choice =>
    dsimp only [stepE] at h
    split at h
    · rw [countEq_handleAiMove] at h
      exact absurd h (lt_irrefl _)
    · exact absurd h (lt_irrefl _)
  | chessClick m =>
    dsimp only [stepE] at h
    split at h
    · rw [countEq_handlePlayerChessMove] at h
      exact absurd h (lt_irrefl _)
    · exact absurd h (lt_irrefl _)
  | fireChess choice =>
    dsimp only [stepE] at h
    split at h
    · rw [countEq_handleAiChessMove] at h
      exact absurd h (lt_irrefl _)
    · exact absurd h (lt_irrefl _)

/-- The stale-closure trace: TTS is on at submit time, a chunk arrives, then
the user toggles TTS off before the stream completes. -/
def staleToggleTrace : List Ev :=
  [.voicesLoaded 1, .setInput "hi", .submit, .chunk "x", .toggleTts]

/-- Witness: `playback_only_readAloud_or_captured_tts` at the playback started
by stream completion on the stale-closure trace — playback begins (the
submit-time capture of the flag was on) even though the current TTS flag is
off by then. -/
theorem playback_only_readAloud_or_captured_tts_witness :
    ((∃ t, Ev.streamEnd = Ev.readAloud t) ∨
      (∃ p : Pending, (run unitEngine staleToggleTrace).pending = some p ∧
        p.ttsAtSubmit = true ∧
        (Ev.streamEnd = Ev.streamEnd ∨ Ev.streamEnd = Ev.streamFail))) ∧
    (run unitEngine staleToggleTrace).isTtsEnabled = false ∧
    (run unitEngine staleToggleTrace).speakCount
      < (stepE unitEngine .streamEnd (run unitEngine staleToggleTrace)).speakCount :=
  ⟨playback_only_readAloud_or_captured_tts unitEngine .streamEnd
      (run unitEngine staleToggleTrace) (by decide),
   by decide, by decide⟩

/-! ### Natural game conclusion -/

/-- C10: when a game ends naturally — terminal human or AI ply, in either
game kind — the handler appends after the final board widget exactly two
model text entries, the outcome narration followed by the fixed concluding
message, and resets the active-game state to none. -/
theorem game_end_protocol (E : ChessEngine Pos) :
    (∀ (s : AppState Pos) (r c : Fin 3) (b : Board) (w : TTTRes),
      b r c = none → checkWinner b = none →
      checkWinner (setCell b r c Mark.X) = some w →
      (handlePlayerMove r c b s).history = s.history ++
        [{ id := s.clock, role := .user, text := none,
           widget := some (.ttt (setCell b r c Mark.X) "playing" false) },
         { id := s.clock + 1, role := .model, text := some (playerWinText w), widget := none },
         { id := s.clock + 2, role := .model, text := some gameConcludedText, widget := none }] ∧
      (handlePlayerMove r c b s).activeGame = ActiveGame.none) ∧
    (∀ (s : AppState Pos) (b : Board) (choice : Nat) (w : TTTRes),
      checkWinner (aiNewBoard b choice) = some w →
      (handleAiMove b choice s).history = s.history ++
        [{ id := s.clock, role := .model, text := none,
           widget := some (.ttt (aiNewBoard b choice) "finished" true) },
         { id := s.clock + 1, role := .model, text := some (aiWinText w), widget := none },
         { id := s.clock + 2, role := .model, text := some gameConcludedText, widget := none }] ∧
      (handleAiMove b choice s).activeGame = ActiveGame.none) ∧
    (∀ (s : AppState Pos) (m : ChessMove) (pos pos' : Pos),
      s.chessPos = some pos → E.isGameOver pos = false →
      E.moveReq pos m = some pos' → E.isGameOver pos' = true →
      (handlePlayerChessMove E m s).history = s.history ++
        [{ id := s.clock, role := .user, text := none,
           widget := some (.chessB (E.fen pos') false) },
         { id := s.clock + 1, role := .model, text := some (chessOverText E pos'), widget := none },
         { id := s.clock + 2, role := .model, text := some gameConcludedText, widget := none }] ∧
      (handlePlayerChessMove E m s).activeGame = ActiveGame.none) ∧
    (∀ (s : AppState Pos) (choice : Nat) (pos pos' : Pos) (san : String),
      s.chessPos = some pos → E.isGameOver pos = false →
      (E.sanMoves pos).get? (choice % (E.sanMoves pos).length) = some san →
      E.moveSan pos san = some pos' → E.isGameOver pos' = true →
      (handleAiChessMove E choice s).history = s.history ++
        ((if E.inCheck pos' = true then
            [{ id := s.clock, role := Role.model, text := some "Check.", widget := none }]
          else []) ++
         [{ id := if E.inCheck pos' = true then s.clock + 1 else s.clock,
            role := .model, text := none, widget := some (.chessB (E.fen pos') true) },
          { id := if E.inCheck pos' = true then s.clock + 2 else s.clock + 1,
            role := .model, text := some (chessOverText E pos'), widget := none },
          { id := if E.inCheck pos' = true then s.clock + 3 else s.clock + 2,
            role := .model, text := some gameConcludedText, widget := none }]) ∧
      (handleAiChessMove E choice s).activeGame = ActiveGame.none) := by
  refine ⟨?_, ?_, ?_, ?_⟩
  · intro s r c b w hcell hw0 hw
    unfold handlePlayerMove
    rw [if_neg (by simp [hcell, hw0])]
    dsimp only
    rw [hw]
    dsimp only
    constructor
    · simp [endGame, appendEntry]
    · rfl
  · intro s b choice w hw
    unfold handleAiMove
    dsimp only
    rw [hw]
    dsimp only
    constructor
    · simp [endGame, appendEntry]
    · rfl
  · intro s m pos pos' hp hov hm hov'
    unfold handlePlayerChessMove
    rw [hp]
    dsimp only
    rw [hm]
    dsimp only
    rw [if_neg (by simp [hov]), if_pos hov']
    unfold handleChessGameOver
    dsimp only [appendEntry]
    constructor
    · simp [endGame, appendEntry]
    · rfl
  · intro s choice pos pos' san hp hov hsan hmv hov'
    unfold handleAiChessMove
    rw [hp]
    dsimp only
    rw [if_neg (by simp [hov]), hsan]
    dsimp only
    rw [hmv]
    dsimp only
    rw [if_pos hov']
    unfold handleChessGameOver
    by_cases hchk : E.inCheck pos' = true
    · rw [if_pos hchk]
      dsimp only [appendEntry]
      constructor
      · simp [hchk, endGame, appendEntry]
      · rfl
    · rw [if_neg hchk]
      dsimp only [appendEntry]
      constructor
      · simp [hchk, endGame, appendEntry]
      · rfl

/-- The board on which the random AI ply (choice 0) completes O's top row. -/
def aiWinSetup : Board := fun i j =>
  if i = 0 ∧ (j = 0 ∨ j = 1) then some Mark.O
  else if i = 1 ∧ (j = 0 ∨ j = 1) then some Mark.X
  else none

/-- The human move request used with `toyEngine`. -/
def chessWitnessMove : ChessMove := { fromSq := "e2", toSq := "e4", promotion := "q" }

/-- Witness: `game_end_protocol` at concrete terminal plies of all four paths. -/
theorem game_end_protocol_witness :
    ((handlePlayerMove 2 2 diagTwoBoard (initState : AppState Unit)).activeGame
      = ActiveGame.none) ∧
    ((handlePlayerMove 2 2 diagTwoBoard (initState : AppState Unit)).history.length
      = (initState : AppState Unit).history.length + 3) ∧
    ((handleAiMove aiWinSetup 0 (initState : AppState Unit)).activeGame
      = ActiveGame.none) ∧
    ((handlePlayerChessMove toyEngine chessWitnessMove
        (run toyEngine [.startChess])).activeGame = ActiveGame.none) ∧
    ((handleAiChessMove toyEngine 0 (run toyEngine [.startChess])).activeGame
      = ActiveGame.none) := by
  have hA := (game_end_protocol unitEngine).1 initState 2 2 diagTwoBoard
    TTTRes.X (by decide) (by decide) (by decide)
  have hB := (game_end_protocol unitEngine).2.1 initState aiWinSetup 0
    TTTRes.O (by decide)
  have hC := (game_end_protocol toyEngine).2.2.1 (run toyEngine [.startChess])
    chessWitnessMove false true (by decide) rfl rfl rfl
  have hD := (game_end_protocol toyEngine).2.2.2 (run toyEngine [.startChess])
    0 false true "Qh4" (by decide) rfl rfl rfl rfl
  refine ⟨hA.2, ?_, hB.2, hC.2, hD.2⟩
  rw [hA.1]
  simp

end Victor
